import Mathlib

/-!
Shallow embedding of `src/apv_calculator.py` (class `APVCalculator`).

Python floats are idealised as exact rationals (`ℚ`), with the special
float values `nan`, `+inf`, `-inf` represented explicitly by the
inductive type `PyNum`.  A cash-flow entry may also be Python `None`,
modelled as `Option PyNum` with `none` for `None`.  A computation that
raises `ZeroDivisionError` (or an `IndexError` inside the adapter)
is modelled as returning `Option.none` / `Except.error`.
-/

/-- A Python float value: not-a-number, positive infinity, negative
infinity, or a finite number (idealised as a rational). -/
inductive PyNum where
  | nan : PyNum
  | inf : PyNum
  | ninf : PyNum
  | fin : ℚ → PyNum
deriving DecidableEq, Repr

/-- `pd.isna` on a float: true exactly for NaN. -/
def pyIsNA : PyNum → Bool
  | PyNum.nan => true
  | _ => false

/-- Python `abs` on a float. -/
def pyAbs : PyNum → PyNum
  | PyNum.nan => PyNum.nan
  | PyNum.inf => PyNum.inf
  | PyNum.ninf => PyNum.inf
  | PyNum.fin q => PyNum.fin |q|

/-- Python unary negation on a float. -/
def pyNeg : PyNum → PyNum
  | PyNum.nan => PyNum.nan
  | PyNum.inf => PyNum.ninf
  | PyNum.ninf => PyNum.inf
  | PyNum.fin q => PyNum.fin (-q)

/-- Python float division by a finite float `d`: raises
`ZeroDivisionError` (modelled `none`) when `d = 0`, for every
numerator including `nan` and the infinities. -/
def pyDivQ (x : PyNum) (d : ℚ) : Option PyNum :=
  if d = 0 then none
  else some (match x with
    | PyNum.nan => PyNum.nan
    | PyNum.inf => if 0 < d then PyNum.inf else PyNum.ninf
    | PyNum.ninf => if 0 < d then PyNum.ninf else PyNum.inf
    | PyNum.fin q => PyNum.fin (q / d))

/-- Python float addition. -/
def pyAdd : PyNum → PyNum → PyNum
  | PyNum.nan, _ => PyNum.nan
  | _, PyNum.nan => PyNum.nan
  | PyNum.inf, PyNum.ninf => PyNum.nan
  | PyNum.ninf, PyNum.inf => PyNum.nan
  | PyNum.inf, _ => PyNum.inf
  | _, PyNum.inf => PyNum.inf
  | PyNum.ninf, _ => PyNum.ninf
  | _, PyNum.ninf => PyNum.ninf
  | PyNum.fin a, PyNum.fin b => PyNum.fin (a + b)

/-- One iteration of the cleaning loop of `calculate_npv`: keep an
entry `cf` iff `cf is not None and not pd.isna(cf)`, turning it into
`abs(float(cf))`. -/
def cleanStep (cf : Option PyNum) : Option PyNum :=
  match cf with
  | none => none
  | some v => if pyIsNA v then none else some (pyAbs v)

/-- The cleaning loop of `calculate_npv`. -/
def clean_cash_flows (cash_flows : List (Option PyNum)) : List PyNum :=
  cash_flows.filterMap cleanStep

/-- The accumulation loop of `calculate_npv`:
`npv += cf / ((1 + discount_rate) ** (t + 1))` over the cleaned series,
starting at position `t` with accumulator `acc`; a zero denominator
raises (modelled `none`). -/
def npvLoop (r : ℚ) : List PyNum → ℕ → PyNum → Option PyNum
  | [], _, acc => some acc
  | cf :: rest, t, acc =>
    match pyDivQ cf ((1 + r) ^ (t + 1)) with
    | none => none
    | some term => npvLoop r rest (t + 1) (pyAdd acc term)

/-- `APVCalculator.calculate_npv`: clean the series (drop `None`/NaN,
take absolute values), return `0.0` when the cleaned series is empty,
otherwise sum the discounted terms. -/
def calculate_npv (cash_flows : List (Option PyNum)) (discount_rate : ℚ) :
    Option PyNum :=
  let clean := clean_cash_flows cash_flows
  if clean = [] then some (PyNum.fin 0)
  else npvLoop discount_rate clean 0 (PyNum.fin 0)

/-- `APVCalculator.calculate_tax_shield`: `0.0` when any argument is
`None`; `debt * tax_rate` when `cost_of_debt == 0`; otherwise
`debt * tax_rate * (1 - 1/(1 + cost_of_debt))`, which raises
`ZeroDivisionError` (modelled `none`) when `1 + cost_of_debt = 0`. -/
def calculate_tax_shield (debt tax_rate cost_of_debt : Option ℚ) : Option ℚ :=
  match debt, tax_rate, cost_of_debt with
  | some d, some tr, some c =>
    if c = 0 then some (d * tr)
    else if 1 + c = 0 then none
    else some (d * tr * (1 - 1 / (1 + c)))
  | _, _, _ => some 0

/-- `APVCalculator.calculate_apv`: the simple sum. -/
def calculate_apv (npv tax_shield : ℚ) : ℚ :=
  npv + tax_shield

/-- The dictionary returned by `APVCalculator.sensitivity_analysis`. -/
structure SensitivityResult where
  variations : List ℚ
  values : List ℚ
deriving DecidableEq, Repr

/-- `APVCalculator.sensitivity_analysis`: echo the variations and pair
each delta `v` with `base_value * (1 + v)`. -/
def sensitivity_analysis (base_value : ℚ) (variations : List ℚ) :
    SensitivityResult :=
  { variations := variations
    values := variations.map (fun v => base_value * (1 + v)) }

/-- A financial-statement table as the adapter sees it: rows labelled
by line-item name, each carrying the list of reporting-period values,
most recent first. -/
structure FinTable where
  rows : List (String × List ℚ)
deriving DecidableEq, Repr

/-- `label in table.index`. -/
def hasRow (t : FinTable) (label : String) : Bool :=
  t.rows.any (fun row => row.1 == label)

/-- `table.loc[label].values` (first matching row; `[]` when absent,
only used after a `hasRow` check). -/
def rowVals (t : FinTable) (label : String) : List ℚ :=
  match t.rows.find? (fun row => row.1 == label) with
  | some row => row.2
  | none => []

/-- `table.loc[label].iloc[0]`: most-recent column of the row, raising
`IndexError` (modelled `none`) when the row has no columns. -/
def firstCell (t : FinTable) (label : String) : Option ℚ :=
  (rowVals t label).head?

/-- Operating cash-flow extraction of `get_financial_data`: the
`Operating Cash Flow` row, else the
`Total Cash From Operating Activities` row, else four zeros. -/
def extractOCF (cashflow : FinTable) : List ℚ :=
  if hasRow cashflow "Operating Cash Flow" then
    rowVals cashflow "Operating Cash Flow"
  else if hasRow cashflow "Total Cash From Operating Activities" then
    rowVals cashflow "Total Cash From Operating Activities"
  else
    List.replicate 4 0

/-- Total-debt extraction of `get_financial_data`: first label of the
priority list present in the balance sheet, most-recent column;
`0` when none matches; `none` models an `IndexError` on an empty row. -/
def extractDebt (balance_sheet : FinTable) : Option ℚ :=
  match ["Total Debt", "Long Term Debt", "Total Long Term Debt"].find?
      (fun label => hasRow balance_sheet label) with
  | none => some 0
  | some label => firstCell balance_sheet label

/-- Effective-tax-rate extraction of `get_financial_data`:
`tax_expense / pretax_income` from the most recent column when both
rows exist (with a `0.25` fallback when the pretax income is zero),
`0.25` when either row is absent; `none` models an `IndexError`. -/
def extractTaxRate (income_stmt : FinTable) : Option ℚ :=
  if hasRow income_stmt "Income Tax Expense" &&
      hasRow income_stmt "Pretax Income" then
    match firstCell income_stmt "Income Tax Expense" with
    | none => none
    | some tax_expense =>
      match firstCell income_stmt "Pretax Income" with
      | none => none
      | some pretax_income =>
        some (if pretax_income ≠ 0 then tax_expense / pretax_income
              else 1 / 4)
  else some (1 / 4)

/-- The cause wrapped into the adapter's failure: the external fetch
failed, or an extraction step raised an `IndexError` inside the `try`. -/
inductive AdapterCause where
  | fetch : String → AdapterCause
  | indexError : AdapterCause
deriving DecidableEq, Repr

/-- The single failure value `get_financial_data` raises: it carries
the requested ticker and the underlying cause. -/
structure DataRetrievalError where
  ticker : String
  cause : AdapterCause
deriving DecidableEq, Repr

/-- The adapter's successful output. -/
structure FinancialSnapshot where
  operating_cashflow : List ℚ
  total_debt : ℚ
  effective_tax_rate : ℚ
  balance_sheet : FinTable
  income_stmt : FinTable
  cashflow : FinTable
deriving DecidableEq, Repr

/-- `APVCalculator.get_financial_data`: the external provider's
response (three tables, or a fetch failure) is a parameter; every
failure inside the `try` block is re-raised as a `DataRetrievalError`
carrying the ticker. -/
def get_financial_data (ticker : String)
    (fetch : Except String (FinTable × FinTable × FinTable)) :
    Except DataRetrievalError FinancialSnapshot :=
  match fetch with
  | Except.error e => Except.error ⟨ticker, AdapterCause.fetch e⟩
  | Except.ok (balance_sheet, income_stmt, cashflow) =>
    let operating_cashflow := extractOCF cashflow
    match extractDebt balance_sheet with
    | none => Except.error ⟨ticker, AdapterCause.indexError⟩
    | some total_debt =>
      match extractTaxRate income_stmt with
      | none => Except.error ⟨ticker, AdapterCause.indexError⟩
      | some effective_tax_rate =>
        Except.ok ⟨operating_cashflow, total_debt, effective_tax_rate,
          balance_sheet, income_stmt, cashflow⟩

/-- Entry is not an infinity (it is `None`, NaN, or finite). -/
def noInf : Option PyNum → Bool
  | some PyNum.inf => false
  | some PyNum.ninf => false
  | _ => true

/-- Spec-side cleaned series: the absolute values of the finite
entries, in order. -/
def cleanedAbs (cash_flows : List (Option PyNum)) : List ℚ :=
  cash_flows.filterMap (fun cf =>
    match cf with
    | some (PyNum.fin q) => some |q|
    | _ => none)

/-- Spec-side discounted sum starting at position `t`:
`Σ qs[i] / (1 + r)^(t+i+1)`. -/
def discountedSum (r : ℚ) : ℕ → List ℚ → ℚ
  | _, [] => 0
  | t, q :: rest => q / (1 + r) ^ (t + 1) + discountedSum r (t + 1) rest

/-- "entry `b` is entry `a`, possibly negated" — the relation used to
express invariance of `calculate_npv` under negating a subset of the
series. -/
def negOrSame (a b : Option PyNum) : Prop :=
  b = a ∨ b = Option.map pyNeg a

/-- A float is a finite number (not NaN, not an infinity). -/
def pyFinite : PyNum → Bool
  | PyNum.fin _ => true
  | _ => false

lemma clean_map_fin (cfs : List (Option PyNum))
    (h : ∀ e ∈ cfs, noInf e = true) :
    clean_cash_flows cfs = (cleanedAbs cfs).map PyNum.fin := by
  induction cfs with
  | nil => rfl
  | cons e rest ih =>
    have he : noInf e = true := h e (List.mem_cons_self _ _)
    have hrest := ih (fun x hx => h x (List.mem_cons_of_mem _ hx))
    rcases e with _ | v
    · simpa [clean_cash_flows, cleanedAbs, cleanStep, List.filterMap_cons]
        using hrest
    · rcases v with _ | _ | _ | q
      · simpa [clean_cash_flows, cleanedAbs, cleanStep, pyIsNA,
          List.filterMap_cons] using hrest
      · simp [noInf] at he
      · simp [noInf] at he
      · simpa [clean_cash_flows, cleanedAbs, cleanStep, pyIsNA, pyAbs,
          List.filterMap_cons] using hrest

lemma npvLoop_map_fin (r : ℚ) (hr : (1 : ℚ) + r ≠ 0) (qs : List ℚ) :
    ∀ (t : ℕ) (a : ℚ),
      npvLoop r (qs.map PyNum.fin) t (PyNum.fin a) =
        some (PyNum.fin (a + discountedSum r t qs)) := by
  induction qs with
  | nil => intro t a; simp [npvLoop, discountedSum]
  | cons q rest ih =>
    intro t a
    have hpow : ((1 : ℚ) + r) ^ (t + 1) ≠ 0 := pow_ne_zero _ hr
    have hdiv : pyDivQ (PyNum.fin q) ((1 + r) ^ (t + 1)) =
        some (PyNum.fin (q / (1 + r) ^ (t + 1))) := by
      simp [pyDivQ, hpow]
    have hstep : pyAdd (PyNum.fin a) (PyNum.fin (q / (1 + r) ^ (t + 1))) =
        PyNum.fin (a + q / (1 + r) ^ (t + 1)) := rfl
    simp only [List.map_cons, npvLoop, hdiv, discountedSum]
    rw [hstep, ih (t + 1) (a + q / (1 + r) ^ (t + 1)), add_assoc]

lemma calculate_npv_eval (cfs : List (Option PyNum)) (r : ℚ)
    (hfin : ∀ e ∈ cfs, noInf e = true) (hr : (1 : ℚ) + r ≠ 0) :
    calculate_npv cfs r =
      some (PyNum.fin (discountedSum r 0 (cleanedAbs cfs))) := by
  have hc := clean_map_fin cfs hfin
  by_cases hnil : clean_cash_flows cfs = []
  · have : cleanedAbs cfs = [] := by
      rw [hnil] at hc; exact (List.map_eq_nil_iff.mp hc.symm)
    simp [calculate_npv, hnil, this, discountedSum]
  · simp only [calculate_npv, if_neg hnil]
    rw [hc, npvLoop_map_fin r hr (cleanedAbs cfs) 0 0, zero_add]

lemma npvLoop_ne_none (r : ℚ) (hr : (1 : ℚ) + r ≠ 0) (l : List PyNum) :
    ∀ (t : ℕ) (a : PyNum), npvLoop r l t a ≠ none := by
  induction l with
  | nil => intro t a; simp [npvLoop]
  | cons cf rest ih =>
    intro t a
    have hpow : ((1 : ℚ) + r) ^ (t + 1) ≠ 0 := pow_ne_zero _ hr
    simp only [npvLoop, pyDivQ, if_neg hpow]
    exact ih (t + 1) _

lemma discountedSum_nonneg (r : ℚ) (hr : (0 : ℚ) < 1 + r) (qs : List ℚ)
    (h : ∀ q ∈ qs, 0 ≤ q) : ∀ t : ℕ, 0 ≤ discountedSum r t qs := by
  induction qs with
  | nil => intro t; simp [discountedSum]
  | cons q rest ih =>
    intro t
    have h1 : 0 ≤ q / (1 + r) ^ (t + 1) :=
      div_nonneg (h q (List.mem_cons_self _ _)) (le_of_lt (pow_pos hr _))
    have h2 := ih (fun x hx => h x (List.mem_cons_of_mem _ hx)) (t + 1)
    simpa [discountedSum] using add_nonneg h1 h2

lemma cleanedAbs_mem_nonneg (cfs : List (Option PyNum)) :
    ∀ x ∈ cleanedAbs cfs, 0 ≤ x := by
  intro x hx
  simp only [cleanedAbs, List.mem_filterMap] at hx
  obtain ⟨e, _, hmatch⟩ := hx
  rcases e with _ | v
  · simp at hmatch
  · rcases v with _ | _ | _ | q <;> simp at hmatch
    rw [← hmatch]
    exact abs_nonneg q

/-- Claim C1: `calculate_npv` drops missing/NaN entries, takes the
absolute value of each remaining entry, and returns the sum of
`|cf_t| / (1 + r)^(t+1)` over the cleaned series (0-indexed `t`);
when the cleaned series is empty it returns exactly `0.0` without
failing. -/
theorem npv_formula_correct (cfs : List (Option PyNum)) (r : ℚ)
    (hfin : ∀ e ∈ cfs, noInf e = true) (hr : (1 : ℚ) + r ≠ 0) :
    calculate_npv cfs r =
      some (PyNum.fin (discountedSum r 0 (cleanedAbs cfs))) ∧
    (cleanedAbs cfs = [] → calculate_npv cfs r = some (PyNum.fin 0)) := by
  have h1 := calculate_npv_eval cfs r hfin hr
  refine ⟨h1, fun hnil => ?_⟩
  rw [h1, hnil]
  simp [discountedSum]

/-- Witness for C1 at the series `[-3, None, NaN, 2]` with rate `1/10`:
the cleaned series is `[3, 2]` and the result is
`3/1.1 + 2/1.1^2 = 530/121`. -/
theorem npv_formula_correct_witness :
    calculate_npv
      [some (PyNum.fin (-3)), none, some PyNum.nan, some (PyNum.fin 2)]
      (1 / 10) = some (PyNum.fin (530 / 121)) := by
  have h := (npv_formula_correct
    [some (PyNum.fin (-3)), none, some PyNum.nan, some (PyNum.fin 2)]
    (1 / 10) (by decide) (by norm_num)).1
  rw [h]
  norm_num [discountedSum, cleanedAbs, List.filterMap_cons, List.filterMap_nil]

/-- Counterexample to C2: with all three arguments present and
`cost_of_debt = -1` (which is not `0`), `calculate_tax_shield` does not
return the value of the formula — it raises a `ZeroDivisionError`
(modelled as `none`), because `1/(1 + cost_of_debt)` divides by zero. -/
theorem tax_shield_neg_one_counterexample :
    calculate_tax_shield (some 500) (some (3 / 10)) (some (-1)) = none := by
  norm_num [calculate_tax_shield]

/-- Claim C2 (amended): any absent argument gives `0.0`;
`cost_of_debt = 0` gives `debt * tax_rate`; `cost_of_debt = -1` (all
arguments present) fails with a division-by-zero; every other
`cost_of_debt` gives `debt * tax_rate * (1 - 1/(1 + cost_of_debt))`,
with no range validation. -/
theorem tax_shield_behavior :
    (∀ d t c : Option ℚ, d = none ∨ t = none ∨ c = none →
      calculate_tax_shield d t c = some 0)
    ∧ (∀ d t : ℚ, calculate_tax_shield (some d) (some t) (some 0) =
        some (d * t))
    ∧ (∀ d t : ℚ, calculate_tax_shield (some d) (some t) (some (-1)) =
        none)
    ∧ (∀ d t c : ℚ, c ≠ 0 → (1 : ℚ) + c ≠ 0 →
        calculate_tax_shield (some d) (some t) (some c) =
          some (d * t * (1 - 1 / (1 + c)))) := by
  refine ⟨?_, ?_, ?_, ?_⟩
  · intro d t c h
    rcases h with rfl | rfl | rfl
    · rcases t <;> rcases c <;> rfl
    · rcases d <;> rcases c <;> rfl
    · rcases d <;> rcases t <;> rfl
  · intro d t; simp [calculate_tax_shield]
  · intro d t; norm_num [calculate_tax_shield]
  · intro d t c h0 h1; simp [calculate_tax_shield, h0, h1]

/-- Witness for C2 at `debt = 1000`, `tax_rate = 1/4`,
`cost_of_debt = 1/20` (i.e. 5%): the result is
`1000 * 1/4 * (1 - 1/1.05) = 250/21`. -/
theorem tax_shield_behavior_witness :
    (1 / 20 : ℚ) ≠ 0 ∧ (1 : ℚ) + 1 / 20 ≠ 0 ∧
    calculate_tax_shield (some 1000) (some (1 / 4)) (some (1 / 20)) =
      some (250 / 21) := by
  refine ⟨by norm_num, by norm_num, ?_⟩
  rw [tax_shield_behavior.2.2.2 1000 (1 / 4) (1 / 20) (by norm_num)
    (by norm_num)]
  norm_num

/-- Counterexample to C3: the entry `+inf` is neither `None` nor NaN
and `pd.isna` does not flag it, so it survives cleaning (as its own
absolute value), and it is not a finite number. -/
theorem infinite_survives_cleaning :
    clean_cash_flows [some PyNum.inf] = [PyNum.inf] ∧
    pyFinite PyNum.inf = false := by
  exact ⟨rfl, rfl⟩

/-- Claim C3 (amended): after cleaning, either the series is empty and
the engine returns zero for every discount rate, or every element is
`+inf` or a non-negative finite number; every element is finite and
non-negative whenever all non-missing, non-NaN input entries are
finite (an infinite entry, however, survives cleaning as `+inf`). -/
theorem clean_series_invariant :
    (∀ (cfs : List (Option PyNum)) (r : ℚ), clean_cash_flows cfs = [] →
      calculate_npv cfs r = some (PyNum.fin 0))
    ∧ (∀ (cfs : List (Option PyNum)) (v : PyNum),
        v ∈ clean_cash_flows cfs →
        v = PyNum.inf ∨ ∃ q : ℚ, v = PyNum.fin q ∧ 0 ≤ q)
    ∧ (∀ cfs : List (Option PyNum), (∀ e ∈ cfs, noInf e = true) →
        ∀ v ∈ clean_cash_flows cfs,
          ∃ q : ℚ, v = PyNum.fin q ∧ 0 ≤ q) := by
  refine ⟨?_, ?_, ?_⟩
  · intro cfs r h
    simp [calculate_npv, h]
  · intro cfs v hv
    simp only [clean_cash_flows, List.mem_filterMap] at hv
    obtain ⟨e, _, hmatch⟩ := hv
    rcases e with _ | w
    · simp [cleanStep] at hmatch
    · rcases w with _ | _ | _ | q <;>
        simp [cleanStep, pyIsNA, pyAbs] at hmatch
      · exact Or.inl hmatch.symm
      · exact Or.inl hmatch.symm
      · exact Or.inr ⟨|q|, hmatch.symm, abs_nonneg q⟩
  · intro cfs hfin v hv
    rw [clean_map_fin cfs hfin] at hv
    simp only [List.mem_map] at hv
    obtain ⟨q, hq, rfl⟩ := hv
    exact ⟨q, rfl, cleanedAbs_mem_nonneg cfs q hq⟩

/-- Witness for C3: the series `[None, NaN]` cleans to the empty
series, and the engine then returns exactly zero. -/
theorem clean_series_invariant_witness :
    clean_cash_flows [none, some PyNum.nan] = [] ∧
    calculate_npv [none, some PyNum.nan] 5 = some (PyNum.fin 0) := by
  exact ⟨rfl, clean_series_invariant.1 [none, some PyNum.nan] 5 rfl⟩

/-- Counterexample to C4: the claim allows only `calculate_npv` at a
discount rate of `-1` to fail, but `calculate_tax_shield` with all
three arguments present and `cost_of_debt = -1` also fails with a
division-by-zero (`1/(1 + cost_of_debt)`). -/
theorem tax_shield_failure_counterexample :
    calculate_tax_shield (some 1000) (some (1 / 4)) (some (-1)) = none := by
  norm_num [calculate_tax_shield]

/-- Claim C4 (amended): `calculate_npv` fails exactly when
`1 + discount_rate = 0` and the cleaned series is non-empty (empty
input degrades to zero even then), and `calculate_tax_shield` fails
exactly when all three arguments are present and `cost_of_debt = -1`;
no other engine input fails (`calculate_apv` and
`sensitivity_analysis` are total). -/
theorem engine_failure_characterization :
    (∀ (cfs : List (Option PyNum)) (r : ℚ),
      calculate_npv cfs r = none ↔
        (1 : ℚ) + r = 0 ∧ clean_cash_flows cfs ≠ [])
    ∧ (∀ d t c : Option ℚ,
        calculate_tax_shield d t c = none ↔
          (∃ dv : ℚ, d = some dv) ∧ (∃ tv : ℚ, t = some tv) ∧
            c = some (-1)) := by
  constructor
  · intro cfs r
    constructor
    · intro h
      by_cases hc : clean_cash_flows cfs = []
      · simp [calculate_npv, hc] at h
      · by_cases hr : (1 : ℚ) + r = 0
        · exact ⟨hr, hc⟩
        · exfalso
          simp only [calculate_npv, if_neg hc] at h
          exact npvLoop_ne_none r hr (clean_cash_flows cfs) 0
            (PyNum.fin 0) h
    · rintro ⟨hr, hc⟩
      obtain ⟨c, rest, hcr⟩ : ∃ c rest,
          clean_cash_flows cfs = c :: rest := by
        cases h : clean_cash_flows cfs with
        | nil => exact absurd h hc
        | cons c rest => exact ⟨c, rest, rfl⟩
      have hpow : ((1 : ℚ) + r) ^ (0 + 1) = 0 := by
        rw [hr]; norm_num
      simp [calculate_npv, hcr, npvLoop, pyDivQ, hpow]
  · intro d t c
    rcases d with _ | dv <;> rcases t with _ | tv <;> rcases c with _ | cv <;>
      simp [calculate_tax_shield]
    by_cases h0 : cv = 0
    · subst h0
      simp
    · by_cases h1 : (1 : ℚ) + cv = 0
      · have hcv : cv = -1 := by linarith
        subst hcv
        simp [h0]
      · have hcv : cv ≠ -1 := by
          intro hh; rw [hh] at h1; norm_num at h1
        simp [h0, h1, hcv]

/-- Witness for C4: the NPV of `[2]` at discount rate `-1` fails, and
the tax shield at `(7, 1/2, -1)` fails. -/
theorem engine_failure_characterization_witness :
    calculate_npv [some (PyNum.fin 2)] (-1) = none ∧
    calculate_tax_shield (some 7) (some (1 / 2)) (some (-1)) = none := by
  constructor
  · exact (engine_failure_characterization.1 [some (PyNum.fin 2)]
      (-1)).mpr ⟨by norm_num, by decide⟩
  · exact (engine_failure_characterization.2 (some 7) (some (1 / 2))
      (some (-1))).mpr ⟨⟨7, rfl⟩, ⟨1 / 2, rfl⟩, rfl⟩

lemma cleanStep_pyNeg (e : Option PyNum) :
    cleanStep (Option.map pyNeg e) = cleanStep e := by
  rcases e with _ | v
  · rfl
  · rcases v with _ | _ | _ | q <;> simp [cleanStep, pyNeg, pyIsNA, pyAbs]

lemma clean_negOrSame {cfs cfs' : List (Option PyNum)}
    (h : List.Forall₂ negOrSame cfs cfs') :
    clean_cash_flows cfs' = clean_cash_flows cfs := by
  induction h with
  | nil => rfl
  | cons hab htail ih =>
    rename_i a b l₁ l₂
    have hstep : cleanStep b = cleanStep a := by
      rcases hab with rfl | rfl
      · rfl
      · exact cleanStep_pyNeg a
    simp only [clean_cash_flows, List.filterMap_cons] at ih ⊢
    rw [hstep]
    cases h' : cleanStep a <;> simp [h', ih]

/-- Claim C5: `calculate_npv` is invariant under negating any subset
of the entries of the series — the sign of each entry is discarded
before discounting. -/
theorem npv_sign_invariant (cfs cfs' : List (Option PyNum)) (r : ℚ)
    (h : List.Forall₂ negOrSame cfs cfs') :
    calculate_npv cfs' r = calculate_npv cfs r := by
  simp only [calculate_npv, clean_negOrSame h]

/-- Witness for C5: negating the first entry of `[3, None, -2, NaN]`
leaves the NPV at rate `1/10` unchanged. -/
theorem npv_sign_invariant_witness :
    List.Forall₂ negOrSame
      [some (PyNum.fin 3), none, some (PyNum.fin (-2)), some PyNum.nan]
      [some (PyNum.fin (-3)), none, some (PyNum.fin (-2)), some PyNum.nan]
    ∧ calculate_npv
        [some (PyNum.fin (-3)), none, some (PyNum.fin (-2)), some PyNum.nan]
        (1 / 10) =
      calculate_npv
        [some (PyNum.fin 3), none, some (PyNum.fin (-2)), some PyNum.nan]
        (1 / 10) := by
  have hF : List.Forall₂ negOrSame
      [some (PyNum.fin 3), none, some (PyNum.fin (-2)), some PyNum.nan]
      [some (PyNum.fin (-3)), none, some (PyNum.fin (-2)), some PyNum.nan] :=
    List.Forall₂.cons (Or.inr rfl)
      (List.Forall₂.cons (Or.inl rfl)
        (List.Forall₂.cons (Or.inl rfl)
          (List.Forall₂.cons (Or.inl rfl) List.Forall₂.nil)))
  exact ⟨hF, npv_sign_invariant _ _ (1 / 10) hF⟩

/-- Claim C6: `sensitivity_analysis` returns exactly
`base_value * (1 + v)` for each delta `v` in input order, echoes the
variations unchanged, and preserves the input length. -/
theorem sensitivity_exact (b : ℚ) (vs : List ℚ) :
    (sensitivity_analysis b vs).values = vs.map (fun v => b * (1 + v)) ∧
    (sensitivity_analysis b vs).variations = vs ∧
    ((sensitivity_analysis b vs).values).length = vs.length := by
  refine ⟨rfl, rfl, ?_⟩
  simp [sensitivity_analysis]

/-- Claim C7: when the external fetch fails, `get_financial_data`
fails with a single `DataRetrievalError` carrying the requested ticker
and the underlying cause, and returns no (partial) snapshot. -/
theorem fetch_failure_single_error (ticker e : String) :
    get_financial_data ticker (Except.error e) =
      Except.error ⟨ticker, AdapterCause.fetch e⟩ := rfl

lemma get_financial_data_ok_fields (ticker : String)
    (bs stmt cf : FinTable) (s : FinancialSnapshot)
    (hok : get_financial_data ticker (Except.ok (bs, stmt, cf)) =
      Except.ok s) :
    s.operating_cashflow = extractOCF cf ∧
    extractTaxRate stmt = some s.effective_tax_rate ∧
    extractDebt bs = some s.total_debt := by
  rcases hdebt : extractDebt bs with _ | d
  · simp [get_financial_data, hdebt] at hok
  · rcases htax : extractTaxRate stmt with _ | etr
    · simp [get_financial_data, hdebt, htax] at hok
    · simp only [get_financial_data, hdebt, htax] at hok
      rw [Except.ok.injEq] at hok
      subst hok
      exact ⟨rfl, rfl, rfl⟩

lemma firstCell_hasRow {t : FinTable} {l : String} {x : ℚ}
    (h : firstCell t l = some x) : hasRow t l = true := by
  unfold firstCell rowVals at h
  cases hfind : t.rows.find? (fun row => row.1 == l) with
  | none => rw [hfind] at h; simp at h
  | some row =>
    have hmem := List.mem_of_find?_eq_some hfind
    have hp := List.find?_some hfind
    unfold hasRow
    rw [List.any_eq_true]
    exact ⟨row, hmem, hp⟩

/-- Claim C8: for a successful adapter call, the snapshot's effective
tax rate is `tax_expense / pretax_income` from the most recent column
when both the `Income Tax Expense` and `Pretax Income` rows exist
(falling back to exactly `0.25` when the pretax income is exactly
zero), and exactly `0.25` when either row is absent. -/
theorem tax_rate_extraction (ticker : String) (bs stmt cf : FinTable)
    (s : FinancialSnapshot)
    (hok : get_financial_data ticker (Except.ok (bs, stmt, cf)) =
      Except.ok s) :
    (∀ te pre : ℚ, firstCell stmt "Income Tax Expense" = some te →
      firstCell stmt "Pretax Income" = some pre →
      s.effective_tax_rate = if pre = 0 then 1 / 4 else te / pre)
    ∧ ((hasRow stmt "Income Tax Expense" = false ∨
        hasRow stmt "Pretax Income" = false) →
      s.effective_tax_rate = 1 / 4) := by
  obtain ⟨-, htax, -⟩ := get_financial_data_ok_fields ticker bs stmt cf s hok
  constructor
  · intro te pre h1 h2
    have hA := firstCell_hasRow h1
    have hB := firstCell_hasRow h2
    have hval : extractTaxRate stmt =
        some (if pre = 0 then 1 / 4 else te / pre) := by
      simp only [extractTaxRate, hA, hB, Bool.and_self, if_true, h1, h2]
      congr 1
      by_cases hpre : pre = 0 <;> simp [hpre]
    rw [hval] at htax
    exact (Option.some.inj htax).symm
  · intro habs
    have hcond : (hasRow stmt "Income Tax Expense" &&
        hasRow stmt "Pretax Income") = false := by
      rcases habs with hA | hB
      · simp [hA]
      · simp [hB]
    simp only [extractTaxRate, hcond, Bool.false_eq_true, if_false] at htax
    exact (Option.some.inj htax).symm

/-- Witness for C8: a successful call on an income statement holding
`Income Tax Expense = 10` and `Pretax Income = 50` yields an effective
tax rate of `10 / 50 = 1/5`. -/
theorem tax_rate_extraction_witness :
    (FinancialSnapshot.mk [0, 0, 0, 0] 0 (10 / 50) (FinTable.mk [])
        (FinTable.mk [("Income Tax Expense", [10]),
          ("Pretax Income", [50])]) (FinTable.mk [])).effective_tax_rate =
      10 / 50 ∧ (10 / 50 : ℚ) = 1 / 5 := by
  constructor
  · have h := (tax_rate_extraction "T" (FinTable.mk [])
      (FinTable.mk [("Income Tax Expense", [10]), ("Pretax Income", [50])])
      (FinTable.mk [])
      (FinancialSnapshot.mk [0, 0, 0, 0] 0 (10 / 50) (FinTable.mk [])
        (FinTable.mk [("Income Tax Expense", [10]),
          ("Pretax Income", [50])]) (FinTable.mk []))
      rfl).1 10 50 rfl rfl
    rw [h]
    norm_num
  · norm_num

/-- Claim C9: for a successful adapter call, the snapshot's operating
cash-flow series comes from the `Operating Cash Flow` row when
present, else from the `Total Cash From Operating Activities` row when
present, else it is a zero-filled series of length 4. -/
theorem operating_cashflow_extraction (ticker : String)
    (bs stmt cf : FinTable) (s : FinancialSnapshot)
    (hok : get_financial_data ticker (Except.ok (bs, stmt, cf)) =
      Except.ok s) :
    (hasRow cf "Operating Cash Flow" = true →
      s.operating_cashflow = rowVals cf "Operating Cash Flow")
    ∧ (hasRow cf "Operating Cash Flow" = false →
        hasRow cf "Total Cash From Operating Activities" = true →
        s.operating_cashflow =
          rowVals cf "Total Cash From Operating Activities")
    ∧ (hasRow cf "Operating Cash Flow" = false →
        hasRow cf "Total Cash From Operating Activities" = false →
        s.operating_cashflow = List.replicate 4 0) := by
  obtain ⟨hocf, -, -⟩ := get_financial_data_ok_fields ticker bs stmt cf s hok
  refine ⟨fun h1 => ?_, fun h1 h2 => ?_, fun h1 h2 => ?_⟩
  · rw [hocf]; simp [extractOCF, h1]
  · rw [hocf]; simp [extractOCF, h1, h2]
  · rw [hocf]; simp [extractOCF, h1, h2]

/-- Witness for C9: a cash-flow table missing `Operating Cash Flow`
but holding `Total Cash From Operating Activities = [5, 6]` yields
`[5, 6]` as the snapshot's operating cash-flow series. -/
theorem operating_cashflow_extraction_witness :
    hasRow (FinTable.mk [("Total Cash From Operating Activities", [5, 6])])
      "Operating Cash Flow" = false ∧
    hasRow (FinTable.mk [("Total Cash From Operating Activities", [5, 6])])
      "Total Cash From Operating Activities" = true ∧
    (FinancialSnapshot.mk [5, 6] 0 (1 / 4) (FinTable.mk []) (FinTable.mk [])
      (FinTable.mk [("Total Cash From Operating Activities",
        [5, 6])])).operating_cashflow = [5, 6] := by
  refine ⟨by decide, by decide, ?_⟩
  have h := (operating_cashflow_extraction "T" (FinTable.mk [])
    (FinTable.mk [])
    (FinTable.mk [("Total Cash From Operating Activities", [5, 6])])
    (FinancialSnapshot.mk [5, 6] 0 (1 / 4) (FinTable.mk []) (FinTable.mk [])
      (FinTable.mk [("Total Cash From Operating Activities", [5, 6])]))
    rfl).2.1 (by decide) (by decide)
  rw [h]
  rfl

/-- Claim C10: when every non-missing, non-NaN entry is finite and the
discount rate is greater than `-1`, `calculate_npv` returns a
non-negative finite value; below `-1` this fails, e.g. the series
`[1]` at rate `-2` yields `-1`. -/
theorem npv_nonneg_above_minus_one :
    (∀ (cfs : List (Option PyNum)) (r : ℚ),
      (∀ e ∈ cfs, noInf e = true) → -1 < r →
      ∃ q : ℚ, calculate_npv cfs r = some (PyNum.fin q) ∧ 0 ≤ q)
    ∧ calculate_npv [some (PyNum.fin 1)] (-2) =
        some (PyNum.fin (-1)) := by
  constructor
  · intro cfs r hfin hr
    have hr0 : (0 : ℚ) < 1 + r := by linarith
    have hr1 : (1 : ℚ) + r ≠ 0 := ne_of_gt hr0
    exact ⟨discountedSum r 0 (cleanedAbs cfs),
      calculate_npv_eval cfs r hfin hr1,
      discountedSum_nonneg r hr0 (cleanedAbs cfs)
        (cleanedAbs_mem_nonneg cfs) 0⟩
  · norm_num [calculate_npv, clean_cash_flows, cleanStep, pyIsNA, pyAbs,
      List.filterMap_cons, List.filterMap_nil, npvLoop, pyDivQ, pyAdd]

/-- Witness for C10 at the series `[-4, None]` with rate `1/4`: the
returned value is `4 / (5/4) = 16/5`, which is non-negative. -/
theorem npv_nonneg_above_minus_one_witness :
    calculate_npv [some (PyNum.fin (-4)), none] (1 / 4) =
      some (PyNum.fin (16 / 5)) ∧ (0 : ℚ) ≤ 16 / 5 := by
  obtain ⟨q, hq, h0⟩ := npv_nonneg_above_minus_one.1
    [some (PyNum.fin (-4)), none] (1 / 4) (by decide) (by norm_num)
  have he : calculate_npv [some (PyNum.fin (-4)), none] (1 / 4) =
      some (PyNum.fin (16 / 5)) := by
    rw [calculate_npv_eval _ _ (by decide) (by norm_num)]
    norm_num [discountedSum, cleanedAbs, List.filterMap_cons,
      List.filterMap_nil]
  have hq5 : q = 16 / 5 := by
    have := Option.some.inj (hq.symm.trans he)
    exact PyNum.fin.inj this
  exact ⟨he, hq5 ▸ h0⟩
